import Mathlib

/-!
# Verification of the task-list state and interaction engine

Shallow embedding of `src/frontend/src/TaskList.tsx`: the in-memory task
collection, the filter predicate, the draft-create handler, the
status-change and delete handlers, the drag-end coordinator, the
view-mode initialization, and the URL query-parameter update effect.

JavaScript strings are modelled as `List Char`; `String.prototype.toLowerCase`
as a character-wise lowering map, `String.prototype.trim` as dropping
whitespace from both ends, and `String.prototype.includes` as a substring
test. Remote calls are modelled by an explicit call trace together with
outcome parameters (success/failure) for the awaited operations.
-/

namespace TaskListApp

/-- JavaScript strings, as lists of characters. -/
abbrev Str := List Char

/-- Model of `String.prototype.toLowerCase` (character-wise). -/
def lower (s : Str) : Str := s.map Char.toLower

/-- Whether a character is trimmed by `String.prototype.trim`. -/
def isWS (c : Char) : Bool := c.isWhitespace

/-- Model of `String.prototype.trim`: drop whitespace from both ends. -/
def trim (s : Str) : Str :=
  ((s.dropWhile isWS).reverse.dropWhile isWS).reverse

/-- `leadsWith n h` holds when `h` starts with `n`. -/
def leadsWith : Str → Str → Bool
  | [], _ => true
  | _ :: _, [] => false
  | a :: as, b :: bs => a = b && leadsWith as bs

/-- Model of `String.prototype.includes`: `n` occurs contiguously in `h`. -/
def hasSub : Str → Str → Bool
  | n, [] => leadsWith n []
  | n, h@(_ :: t) => leadsWith n h || hasSub n t

/-- The status enum: 未着手 (NotStarted), 進行中 (InProgress), 完了 (Done). -/
inductive Status where
  | notStarted
  | inProgress
  | done
deriving DecidableEq, Repr

/-- A task as held in the local collection (`Task` in `api.ts`). -/
structure Task where
  id : Nat
  name : Str
  details : Str
  status : Status
  updated_at : Nat
deriving DecidableEq, Repr

/-- `filteredTasks` from TaskList.tsx lines 110-117: keep a task when its
lowercased name or details contain the lowercased filter text, and the
selected-status list is empty or contains the task's status. -/
def filteredTasks (tasks : List Task) (filterText : Str)
    (selectedStatuses : List Status) : List Task :=
  tasks.filter (fun task =>
    (hasSub (lower filterText) (lower task.name) ||
      hasSub (lower filterText) (lower task.details)) &&
    (selectedStatuses.isEmpty || selectedStatuses.contains task.status))

/-- The spec's visibility predicate, written from the spec's words: visible iff
(text query is empty OR query is a case-insensitive substring of name OR of
details) AND (status set is empty OR task's status is in the set). -/
def specVisible (filterText : Str) (selectedStatuses : List Status)
    (task : Task) : Bool :=
  (filterText.isEmpty ||
    hasSub (lower filterText) (lower task.name) ||
    hasSub (lower filterText) (lower task.details)) &&
  (selectedStatuses.isEmpty || selectedStatuses.contains task.status)

/-- `leadsWith [] h` always holds. -/
theorem leadsWith_nil (h : Str) : leadsWith [] h = true := by
  cases h <;> rfl

/-- The empty string occurs in every string. -/
theorem hasSub_nil (h : Str) : hasSub [] h = true := by
  cases h with
  | nil => rfl
  | cons a t => simp [hasSub, leadsWith_nil]

/-- A remote-collaborator call, as issued by the handlers (api.ts surface). -/
inductive RemoteCall where
  | fetchAll
  | create (name details : Str) (status : Status)
  | update (id : Nat) (name details : Str) (status : Status)
  | delete (id : Nat)
deriving DecidableEq, Repr

/-- Outcome of an awaited `fetchTasks()` call: resolution with a possibly
null payload, or rejection. -/
inductive FetchOutcome where
  | ok (data : Option (List Task))
  | err
deriving DecidableEq, Repr

/-- The collection `setTasks` receives in `loadTasks` (lines 42-50):
`setTasks(data || [])` on resolution, `setTasks([])` in the catch. -/
def loadResult : FetchOutcome → List Task
  | .ok (some data) => data
  | .ok none => []
  | .err => []

/-- The component state touched by the handlers under scrutiny. -/
structure TaskListState where
  tasks : List Task
  filterText : Str
  selectedStatuses : List Status
  newTaskName : Str
  newTaskDetails : Str
  editingNewTask : Bool
deriving DecidableEq, Repr

/-- `loadTasks` (lines 42-50) as a step on the state, paired with the trace
of remote calls it issues. -/
def loadTasks (s : TaskListState) (fout : FetchOutcome) :
    TaskListState × List RemoteCall :=
  ({ s with tasks := loadResult fout }, [RemoteCall.fetchAll])

/-- `handleCreate` (lines 52-70). If the trimmed name is empty: leave edit
mode, make no call (fields are NOT cleared). Otherwise issue the create call
with trimmed name/details and status 未着手; on success clear both fields,
leave edit mode and reload; on rejection the catch only logs. -/
def handleCreate (s : TaskListState) (createOk : Bool) (fout : FetchOutcome) :
    TaskListState × List RemoteCall :=
  if trim s.newTaskName = [] then
    ({ s with editingNewTask := false }, [])
  else
    let call := RemoteCall.create (trim s.newTaskName) (trim s.newTaskDetails)
      Status.notStarted
    if createOk then
      ({ s with
          newTaskName := []
          newTaskDetails := []
          editingNewTask := false
          tasks := loadResult fout },
        [call, RemoteCall.fetchAll])
    else
      (s, [call])

/-- `handleStatusChange` (lines 72-83): update carrying the task's current
name and details with the new status; reload on success; on rejection the
catch only logs. -/
def handleStatusChange (s : TaskListState) (task : Task) (newStatus : Status)
    (updateOk : Bool) (fout : FetchOutcome) :
    TaskListState × List RemoteCall :=
  let call := RemoteCall.update task.id task.name task.details newStatus
  if updateOk then
    ({ s with tasks := loadResult fout }, [call, RemoteCall.fetchAll])
  else
    (s, [call])

/-- `handleDelete` (lines 85-93): delete by id; reload on success; on
rejection the catch only logs. -/
def handleDelete (s : TaskListState) (id : Nat) (deleteOk : Bool)
    (fout : FetchOutcome) : TaskListState × List RemoteCall :=
  if deleteOk then
    ({ s with tasks := loadResult fout }, [RemoteCall.delete id, RemoteCall.fetchAll])
  else
    (s, [RemoteCall.delete id])

/-- `task.id.toString()`, as compared against `draggableId`. -/
def natToStr (n : Nat) : Str := (Nat.repr n).toList

/-- The lookup `t.id.toString() === draggableId` (line 130). -/
def dragMatches (draggableId : Str) (t : Task) : Bool :=
  natToStr t.id = draggableId

/-- A drag-end result from react-beautiful-dnd as TaskList.tsx reads it:
`draggableId`, `source.droppableId`, optional `destination.droppableId`.
Droppable ids are exactly the three statuses (line 352). -/
structure DragEndEvent where
  draggableId : Str
  source : Status
  destination : Option Status
deriving DecidableEq, Repr

/-- `handleDragEnd` (lines 126-139): return on absent destination or equal
droppable ids; otherwise look the dragged id up in the *filtered* list and,
when found, update to the destination status, then reload on success (an
update rejection propagates: no reload, no state change). -/
def handleDragEnd (s : TaskListState) (ev : DragEndEvent) (updateOk : Bool)
    (fout : FetchOutcome) : TaskListState × List RemoteCall :=
  match ev.destination with
  | none => (s, [])
  | some dest =>
    if dest = ev.source then (s, [])
    else
      match (filteredTasks s.tasks s.filterText s.selectedStatuses).find?
          (dragMatches ev.draggableId) with
      | none => (s, [])
      | some taskToUpdate =>
        let call := RemoteCall.update taskToUpdate.id taskToUpdate.name
          taskToUpdate.details dest
        if updateOk then
          ({ s with tasks := loadResult fout }, [call, RemoteCall.fetchAll])
        else
          (s, [call])

/-- `initialView` (lines 19-21): `params.get("view") || "table"` — `null`
(absent) and the empty string are falsy and default to `"table"`; any other
value is taken verbatim. -/
def initialView (viewParam : Option Str) : Str :=
  match viewParam with
  | none => "table".toList
  | some v => if v = [] then "table".toList else v

/-- A URL query string, as an ordered list of key-value pairs. -/
abbrev Params := List (Str × Str)

/-- All values a key holds in a query string (`URLSearchParams.getAll`). -/
def getAllParam : Params → Str → List Str
  | [], _ => []
  | (k', v) :: rest, k =>
    if k' = k then v :: getAllParam rest k else getAllParam rest k

/-- Remove every entry for a key (the deletion half of `URLSearchParams.set`). -/
def deleteParam : Params → Str → Params
  | [], _ => []
  | (k', v) :: rest, k =>
    if k' = k then deleteParam rest k else (k', v) :: deleteParam rest k

/-- `URLSearchParams.set`: replace the first entry for the key, delete the
remaining entries for it; append when the key is absent. -/
def setParam : Params → Str → Str → Params
  | [], k, v => [(k, v)]
  | (k', v') :: rest, k, v =>
    if k' = k then (k, v) :: deleteParam rest k
    else (k', v') :: setParam rest k v

/-- The `useEffect` on `viewMode` (lines 36-40): re-read the current search
string and set its `view` parameter to the current mode. -/
def viewModeUrlSync (search : Params) (viewMode : Str) : Params :=
  setParam search "view".toList viewMode

/-! ## Substring theory for the filter -/

/-- `leadsWith n h` holds exactly when some tail completes `n` to `h`. -/
theorem leadsWith_iff (n h : Str) : leadsWith n h = true ↔ ∃ t, h = n ++ t := by
  induction n generalizing h with
  | nil => simp [leadsWith_nil]
  | cons a as ih =>
    cases h with
    | nil => simp [leadsWith]
    | cons b bs =>
      simp only [leadsWith, Bool.and_eq_true, decide_eq_true_eq, ih,
        List.cons_append, List.cons.injEq]
      constructor
      · rintro ⟨rfl, t, rfl⟩
        exact ⟨t, rfl, rfl⟩
      · rintro ⟨t, rfl, rfl⟩
        exact ⟨rfl, t, rfl⟩

/-- `hasSub n h` holds exactly when `h` splits around an occurrence of `n`. -/
theorem hasSub_iff (n h : Str) : hasSub n h = true ↔ ∃ p t, h = p ++ (n ++ t) := by
  induction h with
  | nil =>
    cases n with
    | nil => simp [hasSub, leadsWith]
    | cons a as => simp [hasSub, leadsWith]
  | cons b bs ih =>
    simp only [hasSub, Bool.or_eq_true, leadsWith_iff, ih]
    constructor
    · rintro (⟨t, ht⟩ | ⟨p, t, rfl⟩)
      · exact ⟨[], t, by simpa using ht⟩
      · exact ⟨b :: p, t, rfl⟩
    · rintro ⟨p, t, he⟩
      cases p with
      | nil => exact Or.inl ⟨t, by simpa using he⟩
      | cons x xs =>
        rw [List.cons_append] at he
        injection he with h1 h2
        exact Or.inr ⟨xs, t, h2⟩

/-- Occurrence is transitive. -/
theorem hasSub_trans {a b c : Str} (h1 : hasSub a b = true)
    (h2 : hasSub b c = true) : hasSub a c = true := by
  rw [hasSub_iff] at h1 h2 ⊢
  obtain ⟨p1, t1, rfl⟩ := h1
  obtain ⟨p2, t2, rfl⟩ := h2
  exact ⟨p2 ++ p1, t1 ++ t2, by simp⟩

/-- Lowering distributes over concatenation. -/
theorem lower_append (a b : Str) : lower (a ++ b) = lower a ++ lower b := by
  simp [lower]

/-- The trimmed string occurs in the original string. -/
theorem trim_occurs (q : Str) : hasSub (trim q) q = true := by
  rw [hasSub_iff]
  refine ⟨q.takeWhile isWS, ((q.dropWhile isWS).reverse.takeWhile isWS).reverse, ?_⟩
  conv_lhs => rw [← List.takeWhile_append_dropWhile isWS q]
  congr 1
  have h2 := List.takeWhile_append_dropWhile isWS (q.dropWhile isWS).reverse
  have h3 := congrArg List.reverse h2
  rw [List.reverse_append, List.reverse_reverse] at h3
  unfold trim
  exact h3.symm

/-- Occurrence is preserved by any character map, in particular by lowering. -/
theorem hasSub_map {a b : Str} (f : Char → Char) (h : hasSub a b = true) :
    hasSub (a.map f) (b.map f) = true := by
  rw [hasSub_iff] at h ⊢
  obtain ⟨p, t, rfl⟩ := h
  exact ⟨p.map f, t.map f, by simp⟩

/-! ## C1, C9: the filter predicate -/

/-- C1: a task passes `filteredTasks` iff (the text query is empty OR a
case-insensitive substring of its name OR of its details) AND (the selected
status set is empty OR contains its status) — the spec's predicate and the
code's predicate agree on every collection, query and status set. -/
theorem filteredTasks_eq_specVisible (tasks : List Task) (q : Str)
    (sel : List Status) :
    filteredTasks tasks q sel = tasks.filter (specVisible q sel) := by
  unfold filteredTasks
  apply List.filter_congr
  intro t _
  cases q with
  | nil => simp [specVisible, lower, hasSub_nil]
  | cons c cs => simp [specVisible]

/-- The task used in the concrete checks: §8's
`{id:1, name:"Write spec", details:"", status:NotStarted}`. -/
def sampleTask : Task :=
  { id := 1, name := "Write spec".toList, details := [],
    status := Status.notStarted, updated_at := 0 }

/-- C9 counterexample: the filter does not trim the query. On the task
`"Write spec"` the raw query `"spec "` hides the task while its trimmed form
`"spec"` keeps it, so filtering with a query is NOT the same as filtering
with its trimmed form. -/
theorem filteredTasks_not_trim_invariant :
    filteredTasks [sampleTask] "spec ".toList [] ≠
      filteredTasks [sampleTask] (trim "spec ".toList) [] := by
  decide

/-- C9 amended: the filter uses the raw query verbatim; trimming the query
can only enlarge the visible subset — every task visible under the raw query
is visible under the trimmed query (but not conversely). -/
theorem mem_filteredTasks_trim (tasks : List Task) (q : Str)
    (sel : List Status) (t : Task) (h : t ∈ filteredTasks tasks q sel) :
    t ∈ filteredTasks tasks (trim q) sel := by
  unfold filteredTasks at h ⊢
  rw [List.mem_filter] at h ⊢
  obtain ⟨hmem, hpred⟩ := h
  refine ⟨hmem, ?_⟩
  rw [Bool.and_eq_true] at hpred ⊢
  obtain ⟨htext, hstatus⟩ := hpred
  refine ⟨?_, hstatus⟩
  have hkey : hasSub (lower (trim q)) (lower q) = true :=
    hasSub_map Char.toLower (trim_occurs q)
  rw [Bool.or_eq_true] at htext ⊢
  cases htext with
  | inl hn => exact Or.inl (hasSub_trans hkey hn)
  | inr hd => exact Or.inr (hasSub_trans hkey hd)

/-- C9 amended witness: the `"Write spec"` task visible under the raw query
`"spec"` stays visible under the trimmed query. -/
theorem mem_filteredTasks_trim_witness :
    sampleTask ∈ filteredTasks [sampleTask] (trim "spec".toList) [] :=
  mem_filteredTasks_trim [sampleTask] "spec".toList [] sampleTask (by decide)

/-! ## C2, C7, C8: the drag-end coordinator -/

/-- C2: a drag-end whose dragged id resolves in the visible filtered subset
and whose destination group differs from its source group issues exactly one
update carrying that task's name, details and the destination status,
followed by exactly one reload (the update here resolving successfully). -/
theorem handleDragEnd_moves_visible_task (s : TaskListState) (ev : DragEndEvent)
    (dest : Status) (t : Task) (fout : FetchOutcome)
    (hdest : ev.destination = some dest) (hne : dest ≠ ev.source)
    (hfind : (filteredTasks s.tasks s.filterText s.selectedStatuses).find?
      (dragMatches ev.draggableId) = some t) :
    handleDragEnd s ev true fout =
      ({ s with tasks := loadResult fout },
        [RemoteCall.update t.id t.name t.details dest, RemoteCall.fetchAll]) := by
  unfold handleDragEnd
  rw [hdest]
  simp [hne, hfind]

/-- C2 witness: dragging the sample task from 未着手 to 完了 with no active
filter issues its update to 完了 and then the reload. -/
theorem handleDragEnd_moves_visible_task_witness :
    handleDragEnd ⟨[sampleTask], [], [], [], [], false⟩
        ⟨natToStr 1, Status.notStarted, some Status.done⟩ true
        (FetchOutcome.ok (some [])) =
      ({ (⟨[sampleTask], [], [], [], [], false⟩ : TaskListState) with
          tasks := loadResult (FetchOutcome.ok (some [])) },
        [RemoteCall.update sampleTask.id sampleTask.name sampleTask.details
          Status.done, RemoteCall.fetchAll]) :=
  handleDragEnd_moves_visible_task _ _ _ _ _ rfl (by decide) (by decide)

/-- C7: a drag-end whose dragged id is not found in the visible filtered
subset is silently ignored — no update, no reload, state unchanged. -/
theorem handleDragEnd_ignores_unknown_id (s : TaskListState) (ev : DragEndEvent)
    (ok : Bool) (fout : FetchOutcome)
    (hfind : (filteredTasks s.tasks s.filterText s.selectedStatuses).find?
      (dragMatches ev.draggableId) = none) :
    handleDragEnd s ev ok fout = (s, []) := by
  unfold handleDragEnd
  cases hdest : ev.destination with
  | none => rfl
  | some dest =>
    by_cases hd : dest = ev.source
    · simp [hd]
    · simp [hd, hfind]

/-- C7 witness: the sample task is in the full collection but hidden by the
status filter {完了}, so dragging its id is ignored. -/
theorem handleDragEnd_ignores_unknown_id_witness :
    handleDragEnd ⟨[sampleTask], [], [Status.done], [], [], false⟩
        ⟨natToStr 1, Status.notStarted, some Status.done⟩ true
        FetchOutcome.err =
      (⟨[sampleTask], [], [Status.done], [], [], false⟩, []) :=
  handleDragEnd_ignores_unknown_id _ _ _ _ (by decide)

/-- C8: a drag-end with an absent destination, or with destination group equal
to the source group, is a no-op: no calls, state unchanged. -/
theorem handleDragEnd_noop_same_or_absent (s : TaskListState) (ev : DragEndEvent)
    (ok : Bool) (fout : FetchOutcome)
    (h : ev.destination = none ∨ ev.destination = some ev.source) :
    handleDragEnd s ev ok fout = (s, []) := by
  unfold handleDragEnd
  cases h with
  | inl h => rw [h]
  | inr h =>
    rw [h]
    simp

/-- C8 witness: a cancelled drag (no destination) over the sample state is a
no-op. -/
theorem handleDragEnd_noop_witness :
    handleDragEnd ⟨[sampleTask], [], [], [], [], false⟩
        ⟨natToStr 1, Status.notStarted, none⟩ true FetchOutcome.err =
      (⟨[sampleTask], [], [], [], [], false⟩, []) :=
  handleDragEnd_noop_same_or_absent _ _ _ _ (Or.inl rfl)

/-! ## C3, C5: the draft editor and mutation failures -/

/-- C3 counterexample: confirming the draft with a whitespace-only name and
non-empty details leaves the details field uncleared (the code only leaves
edit mode in that branch), contradicting "both the name and details fields
are cleared". -/
theorem handleCreate_whitespace_keeps_fields :
    (handleCreate ⟨[], [], [], [' '], ['x'], true⟩ true
      FetchOutcome.err).1.newTaskDetails ≠ [] := by
  decide

/-- C3 amended: on confirm, a whitespace-only name issues no create call and
returns the editor to Idle with the fields retained; a successful create
returns to Idle, clears both fields and reloads; a failed create leaves the
editor in Editing with all fields unchanged and triggers no reload. -/
theorem handleCreate_cases (s : TaskListState) (ok : Bool) (fout : FetchOutcome) :
    (trim s.newTaskName = [] →
      handleCreate s ok fout = ({ s with editingNewTask := false }, []))
    ∧ (trim s.newTaskName ≠ [] →
      handleCreate s true fout =
        ({ s with
            newTaskName := []
            newTaskDetails := []
            editingNewTask := false
            tasks := loadResult fout },
          [RemoteCall.create (trim s.newTaskName) (trim s.newTaskDetails)
            Status.notStarted, RemoteCall.fetchAll]))
    ∧ (trim s.newTaskName ≠ [] →
      handleCreate s false fout =
        (s, [RemoteCall.create (trim s.newTaskName) (trim s.newTaskDetails)
          Status.notStarted])) := by
  refine ⟨?_, ?_, ?_⟩ <;> intro h <;> unfold handleCreate <;> simp [h]

/-- C3 amended witness: a whitespace-only draft returns to Idle with the
details field retained and no call issued. -/
theorem handleCreate_cases_witness :
    handleCreate ⟨[], [], [], [' '], ['x'], true⟩ true FetchOutcome.err =
      ({ (⟨[], [], [], [' '], ['x'], true⟩ : TaskListState) with
          editingNewTask := false }, []) :=
  (handleCreate_cases ⟨[], [], [], [' '], ['x'], true⟩ true
    FetchOutcome.err).1 (by decide)

/-- C5: every failing mutation (create with a non-empty trimmed name,
status-change update, delete) leaves the state — in particular the task
collection — exactly as it was, issues only the failing call, and issues no
reload. -/
theorem mutation_failure_atomic (s : TaskListState) (task : Task) (ns : Status)
    (i : Nat) (fout : FetchOutcome) :
    (trim s.newTaskName ≠ [] →
      handleCreate s false fout =
        (s, [RemoteCall.create (trim s.newTaskName) (trim s.newTaskDetails)
          Status.notStarted]))
    ∧ handleStatusChange s task ns false fout =
        (s, [RemoteCall.update task.id task.name task.details ns])
    ∧ handleDelete s i false fout = (s, [RemoteCall.delete i]) := by
  refine ⟨fun h => ?_, ?_, ?_⟩
  · unfold handleCreate
    simp [h]
  · unfold handleStatusChange
    simp
  · unfold handleDelete
    simp

/-- C5 witness: a failing create over a concrete draft leaves the whole state
unchanged and issues only the create call. -/
theorem mutation_failure_atomic_witness :
    handleCreate ⟨[], [], [], ['a'], ['b'], true⟩ false FetchOutcome.err =
      (⟨[], [], [], ['a'], ['b'], true⟩,
        [RemoteCall.create (trim ['a']) (trim ['b']) Status.notStarted]) :=
  (mutation_failure_atomic ⟨[], [], [], ['a'], ['b'], true⟩ sampleTask
    Status.done 0 FetchOutcome.err).1 (by decide)

/-! ## C4: load failure -/

/-- C4: a failing fetch-all replaces the local collection with the empty
collection, whatever was held before. -/
theorem loadTasks_failure_resets (s : TaskListState) :
    loadTasks s FetchOutcome.err = ({ s with tasks := [] }, [RemoteCall.fetchAll]) :=
  rfl

/-! ## C6: view-mode initialization -/

/-- C6 counterexample: with `view=foo` in the URL, the initial view mode is
`foo` — an unrecognized non-empty value is taken verbatim, not defaulted to
`table`. -/
theorem initialView_unrecognized_not_table :
    initialView (some "foo".toList) ≠ "table".toList ∧
      "foo".toList ≠ "table".toList ∧ "foo".toList ≠ "board".toList := by
  decide

/-- C6 amended: the initial view mode is `table` when the `view` parameter is
absent or empty; any other value — including unrecognized ones — is taken
verbatim. -/
theorem initialView_cases :
    initialView none = "table".toList ∧
      initialView (some []) = "table".toList ∧
      ∀ v : Str, v ≠ [] → initialView (some v) = v := by
  refine ⟨rfl, rfl, fun v hv => ?_⟩
  unfold initialView
  simp [hv]

/-- C6 amended witness: `view=board` initializes to `board`. -/
theorem initialView_cases_witness :
    initialView (some "board".toList) = "board".toList :=
  initialView_cases.2.2 "board".toList (by decide)

/-! ## C10: the view-mode URL write -/

/-- Deleting one key's entries leaves every other key's values unchanged. -/
theorem getAllParam_deleteParam (ps : Params) (k k' : Str) (h : k' ≠ k) :
    getAllParam (deleteParam ps k) k' = getAllParam ps k' := by
  have h4 : ¬ k = k' := fun hh => h hh.symm
  induction ps with
  | nil => rfl
  | cons p rest ih =>
    obtain ⟨pk, pv⟩ := p
    by_cases h1 : pk = k
    · simp [deleteParam, getAllParam, h1, h4, ih]
    · by_cases h3 : pk = k'
      · simp [deleteParam, getAllParam, h1, h3, h, ih]
      · simp [deleteParam, getAllParam, h1, h3, ih]

/-- Setting one key leaves every other key's values unchanged. -/
theorem getAllParam_setParam (ps : Params) (k v k' : Str) (h : k' ≠ k) :
    getAllParam (setParam ps k v) k' = getAllParam ps k' := by
  have h4 : ¬ k = k' := fun hh => h hh.symm
  induction ps with
  | nil => simp [setParam, getAllParam, h4]
  | cons p rest ih =>
    obtain ⟨pk, pv⟩ := p
    by_cases h1 : pk = k
    · simp [setParam, getAllParam, h1, h4,
        getAllParam_deleteParam rest k k' h]
    · by_cases h3 : pk = k'
      · simp [setParam, getAllParam, h1, h3, h, ih]
      · simp [setParam, getAllParam, h1, h3, ih]

/-- C10: the view-mode URL write touches only the `view` query parameter —
every other parameter keeps all its values. -/
theorem viewModeUrlSync_preserves_other_params (search : Params) (mode : Str)
    (k : Str) (hk : k ≠ "view".toList) :
    getAllParam (viewModeUrlSync search mode) k = getAllParam search k :=
  getAllParam_setParam search "view".toList mode k hk

/-- C10 witness: switching to `board` over `?view=table&q=x` preserves `q`. -/
theorem viewModeUrlSync_preserves_other_params_witness :
    getAllParam
        (viewModeUrlSync
          [("view".toList, "table".toList), ("q".toList, "x".toList)]
          "board".toList)
        "q".toList =
      getAllParam [("view".toList, "table".toList), ("q".toList, "x".toList)]
        "q".toList :=
  viewModeUrlSync_preserves_other_params _ _ _ (by decide)

end TaskListApp
